import Mathlib

/-!
Verification of the serverless CRUD request handler
(`lambda_function/main.py`) against its natural-language specification.

The handler is embedded shallowly:

* JSON payloads are the inductive type `JVal`; a parsed request body is a
  `JVal`, and a Python dict is `JVal.jobj` over an association list whose
  first binding for a key is the one `dGet` sees (Python dicts have unique
  keys, matched by a `Nodup` hypothesis where iteration order matters).
* The DynamoDB table is an association list `Store` from the string
  partition key `itemId` to stored attribute maps.  `put_item` derives its
  key from the `itemId` attribute of the item itself; a non-string `itemId`
  attribute makes the put fail (surfaced by the handler as a 500), which is
  the only storage failure the idealized collaborator produces.
* Calls to `time.time()` and `uuid.uuid4()` are passed in as explicit
  parameters (`now`, `freshId`); `uuid.uuid4()` always yields a non-empty
  36-character string, so theorems that need it assume `freshId` non-empty.
* The metric publication attempted inside `handle_create_item` references
  the name `context`, which is undefined in that scope, so the attempt
  always raises `NameError`; the surrounding bare `try/except: pass`
  discards any outcome.  The outcome is passed in as `metricOutcome` so
  that independence of the response from it can be stated and proved.
-/

namespace AwsServerlessApi

/-- JSON-like values as produced by `json.loads`: null, booleans, integer
numbers, strings and objects (attribute maps). -/
inductive JVal where
  | jnull : JVal
  | jbool : Bool → JVal
  | jnum  : Int → JVal
  | jstr  : String → JVal
  | jobj  : List (String × JVal) → JVal

/-- Lookup of a key in a string-keyed association list: first binding wins
(real Python dicts and the store never hold a key twice). -/
def lookupA {α : Type} : List (String × α) → String → Option α
  | [], _ => none
  | (k', v) :: rest, k => if k' = k then some v else lookupA rest k

/-- Writing a key into a string-keyed association list: overwrite in place,
else append, as Python dict assignment does. -/
def setA {α : Type} : List (String × α) → String → α → List (String × α)
  | [], k, v => [(k, v)]
  | (k', v') :: rest, k, v =>
      if k' = k then (k, v) :: rest else (k', v') :: setA rest k v

/-- Lookup in a Python-dict-like attribute map, modelling `body[key]`. -/
def dGet (d : List (String × JVal)) (k : String) : Option JVal :=
  lookupA d k

/-- Lookup with a default, modelling `body.get(key, default)`. -/
def dGetD (d : List (String × JVal)) (k : String) (dflt : JVal) : JVal :=
  (dGet d k).getD dflt

/-- Key membership, modelling `key in body`. -/
def dHas (d : List (String × JVal)) (k : String) : Bool :=
  (dGet d k).isSome

/-- Assignment `d[key] = value`. -/
def dSet (d : List (String × JVal)) (k : String) (v : JVal) :
    List (String × JVal) :=
  setA d k v

/-- A loop `for key, value in body.items(): if key not in skip: d[key] = value`.
Both `handle_create_item` (skip = name, description) and
`handle_update_item` (skip = itemId, createdAt) run this shape of loop. -/
def mergeSkip (skip : List String) (fs : List (String × JVal))
    (d : List (String × JVal)) : List (String × JVal) :=
  fs.foldl (fun acc kv => if kv.1 ∈ skip then acc else dSet acc kv.1 kv.2) d

/-- A stored DynamoDB item: an attribute map. -/
abbrev Item := List (String × JVal)

/-- The DynamoDB table, keyed by the string partition key `itemId`. -/
abbrev Store := List (String × Item)

/-- Point lookup `table.get_item(Key=...)`. -/
def sGet (st : Store) (k : String) : Option Item :=
  lookupA st k

/-- Write an item at a key (used for `put_item` and for the attribute map
resulting from `update_item`). -/
def sPut (st : Store) (k : String) (it : Item) : Store :=
  setA st k it

/-- Key removal `table.delete_item(Key=...)`. -/
def sDel (st : Store) (k : String) : Store :=
  st.filter (fun p => decide (p.1 ≠ k))

/-- Partition key of an item handed to `put_item`: the `itemId` attribute
of the item itself.  The table key is string-typed, so a missing or non-string
`itemId` makes the put fail with a client error. -/
def putKey? (item : Item) : Option String :=
  match dGet item "itemId" with
  | some (.jstr s) => some s
  | _ => none

/-- An HTTP-like response as built by every branch of `main.py`. -/
structure Resp where
  statusCode : Nat
  headers : List (String × String)
  body : JVal

/-- The two fixed headers attached to every response. -/
def apiHeaders : List (String × String) :=
  [("Content-Type", "application/json"), ("Access-Control-Allow-Origin", "*")]

/-- Response builder: status code, the fixed headers, a JSON body. -/
def mkResp (code : Nat) (body : JVal) : Resp :=
  { statusCode := code, headers := apiHeaders, body := body }

/-- A bare Python `try: ... except: pass` around a fallible call: whatever
the outcome of the call, nothing of it survives. -/
def pyTry (_r : Except String Unit) : Unit := ()

/-- Python truthiness of the body combined with the isinstance check:
`not body or not isinstance(body, dict)` accepts exactly non-empty dicts
(the empty dict is falsy in Python and is rejected as invalid input). -/
def isNonemptyObj : JVal → Bool
  | .jobj (_ :: _) => true
  | _ => false

/-- Item built by `handle_create_item` (main.py lines 164-176): fixed fields
first, then every body key except `name` and `description` copied through,
overwriting the fixed fields on collision. -/
def buildCreateItem (freshId : String) (now : Int)
    (fs : List (String × JVal)) : Item :=
  mergeSkip ["name", "description"] fs
    [("itemId", .jstr freshId),
     ("name", dGetD fs "name" .jnull),
     ("description", dGetD fs "description" (.jstr "")),
     ("createdAt", .jnum now),
     ("updatedAt", .jnum now)]

/-- Handler for POST /items (main.py lines 122-230).  `freshId` is the
`uuid.uuid4()` result, `now` the `int(time.time())` result, and
`metricOutcome` the outcome of the processing-time metric attempt (in the
source that attempt always raises a NameError because the name `context`
is undefined there; the bare except swallows any outcome). -/
def handle_create_item (freshId : String) (now : Int)
    (metricOutcome : Except String Unit) (body : JVal) (st : Store) :
    Resp × Store :=
  match body with
  | .jobj (kv :: rest) =>
      let fs := kv :: rest
      if dHas fs "name" then
        let item := buildCreateItem freshId now fs
        match putKey? item with
        | some key =>
            let st' := sPut st key item
            let _ := pyTry metricOutcome
            (mkResp 201 (.jobj [("itemId", .jstr freshId),
                ("message", .jstr "Item created successfully")]), st')
        | none =>
            (mkResp 500 (.jobj [("error", .jstr "Failed to create item")]), st)
      else
        (mkResp 400 (.jobj [("error", .jstr "Missing required field: name")]), st)
  | _ =>
      (mkResp 400 (.jobj [("error",
          .jstr "Invalid input: body must be a JSON object")]), st)

/-- Handler for GET /items/id (main.py lines 232-309); reads only. -/
def handle_get_item (itemId : String) (st : Store) : Resp :=
  if itemId = "" then
    mkResp 400 (.jobj [("error", .jstr "Item ID is required")])
  else
    match sGet st itemId with
    | none => mkResp 404 (.jobj [("error", .jstr "Item not found")])
    | some item => mkResp 200 (.jobj item)

/-- Attribute map after `update_item` (main.py lines 367-382): the update
expression sets `updatedAt` to now first, then every body key except
`itemId` and `createdAt`, applied in order, so a caller-supplied
`updatedAt` overwrites the fresh timestamp. -/
def buildUpdatedItem (now : Int) (fs : List (String × JVal))
    (old : Item) : Item :=
  mergeSkip ["itemId", "createdAt"] fs (dSet old "updatedAt" (.jnum now))

/-- Handler for PUT /items/id (main.py lines 311-420): id and body
validation, existence check, then the merge-update. -/
def handle_update_item (now : Int) (itemId : String) (body : JVal)
    (st : Store) : Resp × Store :=
  if itemId = "" then
    (mkResp 400 (.jobj [("error", .jstr "Item ID is required for update")]), st)
  else
    match body with
    | .jobj (kv :: rest) =>
        let fs := kv :: rest
        match sGet st itemId with
        | none => (mkResp 404 (.jobj [("error", .jstr "Item not found")]), st)
        | some old =>
            let st' := sPut st itemId (buildUpdatedItem now fs old)
            (mkResp 200 (.jobj [("itemId", .jstr itemId),
                ("message", .jstr "Item updated successfully")]), st')
    | _ =>
        (mkResp 400 (.jobj [("error",
            .jstr "Invalid input: body must be a JSON object")]), st)

/-- Handler for DELETE /items/id (main.py lines 422-502): id validation,
existence check, then unconditional key removal. -/
def handle_delete_item (itemId : String) (st : Store) : Resp × Store :=
  if itemId = "" then
    (mkResp 400 (.jobj [("error",
        .jstr "Item ID is required for deletion")]), st)
  else
    match sGet st itemId with
    | none => (mkResp 404 (.jobj [("error", .jstr "Item not found")]), st)
    | some _ =>
        (mkResp 200 (.jobj [("itemId", .jstr itemId),
            ("message", .jstr "Item deleted successfully")]),
         sDel st itemId)

/-- Does the character list start with the pattern? -/
def listLead : List Char → List Char → Bool
  | [], _ => true
  | _ :: _, [] => false
  | p :: ps, c :: cs => decide (p = c) && listLead ps cs

/-- Python `path.endswith(pat)`. -/
def strEndsWith (s pat : String) : Bool :=
  listLead pat.toList.reverse s.toList.reverse

/-- Substring occurrence over character lists. -/
def listHasSub : List Char → List Char → Bool
  | pat, [] => listLead pat []
  | pat, c :: cs => listLead pat (c :: cs) || listHasSub pat cs

/-- Python `pat in path`. -/
def strContains (s pat : String) : Bool := listHasSub pat.toList s.toList

/-- Python `str.split(sep)` over characters (keeps empty segments). -/
def splitChar (sep : Char) : List Char → List (List Char)
  | [] => [[]]
  | c :: cs =>
      let rest := splitChar sep cs
      if c = sep then [] :: rest
      else
        match rest with
        | [] => [[c]]
        | g :: gs => (c :: g) :: gs

/-- Python path.split on the slash character, last segment. -/
def lastSegment (path : String) : String :=
  ⟨(splitChar '/' path.toList).getLastD []⟩

/-- Lookup in the `pathParameters` map, modelling `path_parameters.get`. -/
def pGet (pathParams : List (String × String)) (k : String) : Option String :=
  lookupA pathParams k

/-- Identifier extraction for id-scoped routes (main.py lines 53, 56, 59):
the id path parameter when present, else the last path segment, where the
Python `or` falls through on `None` and on the empty string. -/
def extractId (pathParams : List (String × String)) (path : String) : String :=
  match pGet pathParams "id" with
  | some v => if v = "" then lastSegment path else v
  | none => lastSegment path

/-- Outcome of route classification in `handler` (main.py lines 50-60). -/
inductive Route where
  | createRoute : Route
  | getRoute : String → Route
  | updateRoute : String → Route
  | deleteRoute : String → Route
  | unmatched : Route

/-- The if/elif routing chain of `handler`, first match wins. -/
def route (httpMethod path : String)
    (pathParams : List (String × String)) : Route :=
  if httpMethod = "POST" ∧ strEndsWith path "/items" = true then
    .createRoute
  else if httpMethod = "GET" ∧ strContains path "/items/" = true then
    .getRoute (extractId pathParams path)
  else if httpMethod = "PUT" ∧ strContains path "/items/" = true then
    .updateRoute (extractId pathParams path)
  else if httpMethod = "DELETE" ∧ strContains path "/items/" = true then
    .deleteRoute (extractId pathParams path)
  else
    .unmatched

/-- Top-level dispatch (main.py lines 19-120): route, call the matching
operation handler, or build the 404 Not found response.  The body is the
already-parsed request body.  No handler raises in this model, so the
outer catch-all 500 branch is unreachable here. -/
def handler (freshId : String) (now : Int)
    (metricOutcome : Except String Unit) (httpMethod path : String)
    (pathParams : List (String × String)) (body : JVal) (st : Store) :
    Resp × Store :=
  match route httpMethod path pathParams with
  | .createRoute => handle_create_item freshId now metricOutcome body st
  | .getRoute i => (handle_get_item i st, st)
  | .updateRoute i => handle_update_item now i body st
  | .deleteRoute i => handle_delete_item i st
  | .unmatched => (mkResp 404 (.jobj [("error", .jstr "Not found")]), st)

/-- A mutating operation against the store, with its wall-clock inputs. -/
inductive Op where
  | createOp : String → Int → JVal → Op
  | updateOp : String → Int → JVal → Op
  | deleteOp : String → Op

/-- Store effect of one operation (the response is discarded). -/
def applyOp (st : Store) : Op → Store
  | .createOp freshId now body => (handle_create_item freshId now (.ok ()) body st).2
  | .updateOp id now body => (handle_update_item now id body st).2
  | .deleteOp id => (handle_delete_item id st).2

/-- Store after a sequence of operations. -/
def applyOps (st : Store) : List Op → Store
  | [] => st
  | op :: rest => applyOps (applyOp st op) rest

/-- Key membership in a request body (false for non-dict bodies). -/
def hasKey (body : JVal) (k : String) : Bool :=
  match body with
  | .jobj fs => dHas fs k
  | _ => false

/-- An operation whose body does not override the reserved timestamp
attributes through the copy-through/merge loops. -/
def cleanOp : Op → Bool
  | .createOp _ _ body => !hasKey body "createdAt" && !hasKey body "updatedAt"
  | .updateOp _ _ body => !hasKey body "updatedAt"
  | .deleteOp _ => true

/-- Wall-clock reading of an operation, when it takes one. -/
def opTime : Op → Option Int
  | .createOp _ t _ => some t
  | .updateOp _ t _ => some t
  | .deleteOp _ => none

/-- The wall-clock readings along the sequence never decrease, starting
from the lower bound `t`. -/
def timesFrom : Int → List Op → Bool
  | _, [] => true
  | t, op :: rest =>
      match opTime op with
      | some t' => decide (t ≤ t') && timesFrom t' rest
      | none => timesFrom t rest

/-- Timestamp soundness of one item at wall-clock bound `bound`: an integer
`createdAt` is at most `bound`, and whenever both timestamps are integers
they are ordered and bounded. -/
def itemTsOK (bound : Int) (item : Item) : Prop :=
  (∀ c : Int, dGet item "createdAt" = some (.jnum c) → c ≤ bound) ∧
  (∀ c u : Int, dGet item "createdAt" = some (.jnum c) →
      dGet item "updatedAt" = some (.jnum u) → c ≤ u ∧ u ≤ bound)

/-- Timestamp soundness of every stored item. -/
def storeTsOK (bound : Int) (st : Store) : Prop :=
  ∀ p ∈ st, itemTsOK bound p.2

theorem lookupA_setA_same {α : Type} (d : List (String × α)) (k : String)
    (v : α) : lookupA (setA d k v) k = some v := by
  induction d with
  | nil => simp [setA, lookupA]
  | cons hd tl ih =>
      obtain ⟨k', v'⟩ := hd
      by_cases h : k' = k
      · subst h; simp [setA, lookupA]
      · simp [setA, lookupA, h, ih]

theorem lookupA_setA_other {α : Type} (d : List (String × α)) (k k' : String)
    (v : α) (h : k' ≠ k) : lookupA (setA d k' v) k = lookupA d k := by
  induction d with
  | nil => simp [setA, lookupA, h]
  | cons hd tl ih =>
      obtain ⟨k0, v0⟩ := hd
      by_cases h0 : k0 = k'
      · subst h0; simp [setA, lookupA, h]
      · simp only [setA, if_neg h0]
        by_cases h1 : k0 = k
        · simp [lookupA, h1]
        · simp [lookupA, h1, ih]

theorem lookupA_eq_none_of_not_mem {α : Type} (d : List (String × α))
    (k : String) (h : k ∉ d.map Prod.fst) : lookupA d k = none := by
  induction d with
  | nil => rfl
  | cons hd tl ih =>
      obtain ⟨k0, v0⟩ := hd
      simp only [List.map_cons, List.mem_cons] at h
      push_neg at h
      have hk0 : ¬ (k0 = k) := fun he => h.1 he.symm
      simp [lookupA, hk0, ih h.2]

theorem lookupA_mem {α : Type} (d : List (String × α)) (k : String) (v : α)
    (h : lookupA d k = some v) : (k, v) ∈ d := by
  induction d with
  | nil => simp [lookupA] at h
  | cons hd tl ih =>
      obtain ⟨k0, v0⟩ := hd
      by_cases h0 : k0 = k
      · subst h0
        have hv : v0 = v := by simpa [lookupA] using h
        subst hv
        exact List.mem_cons_self _ _
      · simp only [lookupA, if_neg h0] at h
        exact List.mem_cons_of_mem _ (ih h)

theorem setA_mem {α : Type} (d : List (String × α)) (k : String) (v : α)
    (p : String × α) (h : p ∈ setA d k v) : p ∈ d ∨ p = (k, v) := by
  induction d with
  | nil => simpa [setA] using h
  | cons hd tl ih =>
      obtain ⟨k0, v0⟩ := hd
      by_cases h0 : k0 = k
      · subst h0
        have h' : p = (k0, v) ∨ p ∈ tl := by simpa [setA] using h
        rcases h' with h1 | h1
        · exact Or.inr h1
        · exact Or.inl (List.mem_cons_of_mem _ h1)
      · have h' : p = (k0, v0) ∨ p ∈ setA tl k v := by simpa [setA, h0] using h
        rcases h' with h1 | h1
        · exact Or.inl (h1 ▸ List.mem_cons_self _ _)
        · rcases ih h1 with h2 | h2
          · exact Or.inl (List.mem_cons_of_mem _ h2)
          · exact Or.inr h2

theorem sGet_sDel_same (st : Store) (k : String) : sGet (sDel st k) k = none := by
  induction st with
  | nil => rfl
  | cons hd tl ih =>
      obtain ⟨k0, it0⟩ := hd
      by_cases h0 : k0 = k
      · subst h0; simpa [sDel, sGet] using ih
      · simpa [sDel, sGet, lookupA, h0] using ih

theorem sDel_mem (st : Store) (k : String) (p : String × Item)
    (h : p ∈ sDel st k) : p ∈ st :=
  List.mem_of_mem_filter h

theorem mergeSkip_cons (skip : List String) (kv : String × JVal)
    (fs : List (String × JVal)) (d : List (String × JVal)) :
    mergeSkip skip (kv :: fs) d
      = mergeSkip skip fs (if kv.1 ∈ skip then d else dSet d kv.1 kv.2) := rfl

theorem mergeSkip_skip (skip : List String) (fs d : List (String × JVal))
    (k : String) (hk : k ∈ skip) :
    dGet (mergeSkip skip fs d) k = dGet d k := by
  induction fs generalizing d with
  | nil => rfl
  | cons kv rest ih =>
      rw [mergeSkip_cons]
      by_cases h : kv.1 ∈ skip
      · rw [if_pos h]; exact ih d
      · rw [if_neg h, ih]
        exact lookupA_setA_other d k kv.1 kv.2 (fun he => h (he ▸ hk))

theorem mergeSkip_absent (skip : List String) (fs d : List (String × JVal))
    (k : String) :
    dGet fs k = none → dGet (mergeSkip skip fs d) k = dGet d k := by
  induction fs generalizing d with
  | nil => intro _; rfl
  | cons kv rest ih =>
      intro h
      obtain ⟨k0, v0⟩ := kv
      have hk0 : k0 ≠ k := by
        intro he
        simp [dGet, lookupA, he] at h
      have hrest : dGet rest k = none := by
        simpa [dGet, lookupA, hk0] using h
      rw [mergeSkip_cons]
      by_cases hs : k0 ∈ skip
      · rw [if_pos hs]; exact ih d hrest
      · rw [if_neg hs, ih _ hrest]
        exact lookupA_setA_other d k k0 v0 hk0

theorem mergeSkip_present (skip : List String) (fs d : List (String × JVal))
    (k : String) (v : JVal) (hk : k ∉ skip) :
    (fs.map Prod.fst).Nodup → dGet fs k = some v →
      dGet (mergeSkip skip fs d) k = some v := by
  induction fs generalizing d with
  | nil => intro _ h; simp [dGet, lookupA] at h
  | cons kv rest ih =>
      intro hnd h
      obtain ⟨k0, v0⟩ := kv
      simp only [List.map_cons, List.nodup_cons] at hnd
      rw [mergeSkip_cons]
      by_cases he : k0 = k
      · subst he
        have hv : v0 = v := by simpa [dGet, lookupA] using h
        subst hv
        rw [if_neg hk]
        have hnone : dGet rest k0 = none :=
          lookupA_eq_none_of_not_mem rest k0 hnd.1
        rw [mergeSkip_absent _ _ _ _ hnone]
        exact lookupA_setA_same d k0 v0
      · have h' : dGet rest k = some v := by
          simpa [dGet, lookupA, he] using h
        exact ih _ hnd.2 h'

theorem dHas_false_iff (fs : List (String × JVal)) (k : String) :
    dHas fs k = false ↔ dGet fs k = none := by
  unfold dHas
  cases dGet fs k <;> simp

theorem dHas_true_iff (fs : List (String × JVal)) (k : String) :
    dHas fs k = true ↔ ∃ v, dGet fs k = some v := by
  unfold dHas
  cases dGet fs k <;> simp

theorem buildCreateItem_createdAt (freshId : String) (now : Int)
    (fs : List (String × JVal)) (h : dGet fs "createdAt" = none) :
    dGet (buildCreateItem freshId now fs) "createdAt" = some (.jnum now) := by
  unfold buildCreateItem
  rw [mergeSkip_absent _ _ _ _ h]
  simp [dGet, lookupA]

theorem buildCreateItem_updatedAt (freshId : String) (now : Int)
    (fs : List (String × JVal)) (h : dGet fs "updatedAt" = none) :
    dGet (buildCreateItem freshId now fs) "updatedAt" = some (.jnum now) := by
  unfold buildCreateItem
  rw [mergeSkip_absent _ _ _ _ h]
  simp [dGet, lookupA]

theorem buildCreateItem_itemId (freshId : String) (now : Int)
    (fs : List (String × JVal)) (h : dGet fs "itemId" = none) :
    dGet (buildCreateItem freshId now fs) "itemId" = some (.jstr freshId) := by
  unfold buildCreateItem
  rw [mergeSkip_absent _ _ _ _ h]
  simp [dGet, lookupA]

theorem buildCreateItem_name (freshId : String) (now : Int)
    (fs : List (String × JVal)) (nm : JVal) (h : dGet fs "name" = some nm) :
    dGet (buildCreateItem freshId now fs) "name" = some nm := by
  unfold buildCreateItem
  rw [mergeSkip_skip _ _ _ _ (by simp)]
  have h' : lookupA fs "name" = some nm := h
  simp [dGet, lookupA, dGetD, h']

theorem buildUpdatedItem_itemId (now : Int) (fs : List (String × JVal))
    (old : Item) :
    dGet (buildUpdatedItem now fs old) "itemId" = dGet old "itemId" := by
  unfold buildUpdatedItem
  rw [mergeSkip_skip _ _ _ _ (by simp)]
  exact lookupA_setA_other old "itemId" "updatedAt" _ (by decide)

theorem buildUpdatedItem_createdAt (now : Int) (fs : List (String × JVal))
    (old : Item) :
    dGet (buildUpdatedItem now fs old) "createdAt" = dGet old "createdAt" := by
  unfold buildUpdatedItem
  rw [mergeSkip_skip _ _ _ _ (by simp)]
  exact lookupA_setA_other old "createdAt" "updatedAt" _ (by decide)

theorem buildUpdatedItem_updatedAt (now : Int) (fs : List (String × JVal))
    (old : Item) (h : dGet fs "updatedAt" = none) :
    dGet (buildUpdatedItem now fs old) "updatedAt" = some (.jnum now) := by
  unfold buildUpdatedItem
  rw [mergeSkip_absent _ _ _ _ h]
  exact lookupA_setA_same old "updatedAt" (.jnum now)

theorem buildUpdatedItem_body (now : Int) (fs : List (String × JVal))
    (old : Item) (k : String) (v : JVal) (hnd : (fs.map Prod.fst).Nodup)
    (h : dGet fs k = some v) (h1 : k ≠ "itemId") (h2 : k ≠ "createdAt") :
    dGet (buildUpdatedItem now fs old) k = some v := by
  unfold buildUpdatedItem
  exact mergeSkip_present _ _ _ _ _ (by simp [h1, h2]) hnd h

theorem buildUpdatedItem_frame (now : Int) (fs : List (String × JVal))
    (old : Item) (k : String) (h : dGet fs k = none) (hu : k ≠ "updatedAt") :
    dGet (buildUpdatedItem now fs old) k = dGet old k := by
  unfold buildUpdatedItem
  rw [mergeSkip_absent _ _ _ _ h]
  exact lookupA_setA_other old k "updatedAt" _ (fun he => hu he.symm)

theorem storeTsOK_mono (b b' : Int) (st : Store) (h : b ≤ b')
    (hst : storeTsOK b st) : storeTsOK b' st := by
  intro p hp
  obtain ⟨h1, h2⟩ := hst p hp
  refine ⟨fun c hc => le_trans (h1 c hc) h, fun c u hc hu => ?_⟩
  exact ⟨(h2 c u hc hu).1, le_trans (h2 c u hc hu).2 h⟩

theorem create_tsOK (st : Store) (freshId : String) (body : JVal)
    (t now : Int) (hclean : cleanOp (.createOp freshId now body) = true)
    (ht : t ≤ now) (hst : storeTsOK t st) :
    storeTsOK now (applyOp st (.createOp freshId now body)) := by
  have hmono := storeTsOK_mono t now st ht hst
  simp only [cleanOp, Bool.and_eq_true, Bool.not_eq_true'] at hclean
  cases body with
  | jobj fs =>
      cases fs with
      | nil => exact hmono
      | cons kv rest =>
          simp only [hasKey] at hclean
          have hca : dGet (kv :: rest) "createdAt" = none :=
            (dHas_false_iff _ _).mp hclean.1
          have hua : dGet (kv :: rest) "updatedAt" = none :=
            (dHas_false_iff _ _).mp hclean.2
          show storeTsOK now
            (handle_create_item freshId now (.ok ()) (.jobj (kv :: rest)) st).2
          by_cases hname : dHas (kv :: rest) "name" = true
          · cases hput : putKey? (buildCreateItem freshId now (kv :: rest)) with
            | none =>
                simp only [handle_create_item, hname, if_pos, hput]
                exact hmono
            | some key =>
                simp only [handle_create_item, hname, if_pos, hput]
                intro p hp
                rcases setA_mem st key _ p hp with hin | heq
                · exact hmono p hin
                · subst heq
                  refine ⟨fun c hc => ?_, fun c u hc hu => ?_⟩
                  · rw [buildCreateItem_createdAt _ _ _ hca] at hc
                    simp only [Option.some.injEq, JVal.jnum.injEq] at hc
                    omega
                  · rw [buildCreateItem_createdAt _ _ _ hca] at hc
                    rw [buildCreateItem_updatedAt _ _ _ hua] at hu
                    simp only [Option.some.injEq, JVal.jnum.injEq] at hc hu
                    omega
          · simp only [handle_create_item, hname, if_neg, Bool.false_eq_true,
              if_false]
            exact hmono
  | jnull => exact hmono
  | jbool b => exact hmono
  | jnum n => exact hmono
  | jstr s => exact hmono

theorem update_tsOK (st : Store) (id : String) (body : JVal)
    (t now : Int) (hclean : cleanOp (.updateOp id now body) = true)
    (ht : t ≤ now) (hst : storeTsOK t st) :
    storeTsOK now (applyOp st (.updateOp id now body)) := by
  have hmono := storeTsOK_mono t now st ht hst
  simp only [cleanOp, Bool.not_eq_true'] at hclean
  by_cases hid : id = ""
  · simp only [applyOp, handle_update_item, hid, if_pos]
    exact hmono
  cases body with
  | jobj fs =>
      cases fs with
      | nil =>
          simp only [applyOp, handle_update_item, if_neg hid]
          exact hmono
      | cons kv rest =>
          simp only [hasKey] at hclean
          have hua : dGet (kv :: rest) "updatedAt" = none :=
            (dHas_false_iff _ _).mp hclean
          show storeTsOK now
            (handle_update_item now id (.jobj (kv :: rest)) st).2
          cases hold : sGet st id with
          | none =>
              simp only [handle_update_item, if_neg hid, hold]
              exact hmono
          | some old =>
              simp only [handle_update_item, if_neg hid, hold]
              intro p hp
              rcases setA_mem st id _ p hp with hin | heq
              · exact hmono p hin
              · subst heq
                have hmem : (id, old) ∈ st := lookupA_mem st id old hold
                obtain ⟨hold1, _⟩ := hst (id, old) hmem
                refine ⟨fun c hc => ?_, fun c u hc hu => ?_⟩
                · rw [buildUpdatedItem_createdAt] at hc
                  exact le_trans (hold1 c hc) ht
                · rw [buildUpdatedItem_createdAt] at hc
                  rw [buildUpdatedItem_updatedAt _ _ _ hua] at hu
                  simp only [Option.some.injEq, JVal.jnum.injEq] at hu
                  have := le_trans (hold1 c hc) ht
                  omega
  | jnull =>
      simp only [applyOp, handle_update_item, if_neg hid]
      exact hmono
  | jbool b =>
      simp only [applyOp, handle_update_item, if_neg hid]
      exact hmono
  | jnum n =>
      simp only [applyOp, handle_update_item, if_neg hid]
      exact hmono
  | jstr s =>
      simp only [applyOp, handle_update_item, if_neg hid]
      exact hmono

theorem delete_tsOK (st : Store) (id : String) (t : Int)
    (hst : storeTsOK t st) :
    storeTsOK t (applyOp st (.deleteOp id)) := by
  by_cases hid : id = ""
  · simp only [applyOp, handle_delete_item, hid, if_pos]
    exact hst
  cases hold : sGet st id with
  | none =>
      simp only [applyOp, handle_delete_item, if_neg hid, hold]
      exact hst
  | some old =>
      simp only [applyOp, handle_delete_item, if_neg hid, hold]
      intro p hp
      exact hst p (sDel_mem st id p hp)

theorem applyOps_tsOK (ops : List Op) : ∀ (t : Int) (st : Store),
    ops.all cleanOp = true → timesFrom t ops = true → storeTsOK t st →
    ∃ t1, storeTsOK t1 (applyOps st ops) := by
  induction ops with
  | nil => intro t st _ _ hst; exact ⟨t, hst⟩
  | cons op rest ih =>
      intro t st hclean htimes hst
      simp only [List.all_cons, Bool.and_eq_true] at hclean
      cases op with
      | createOp f now body =>
          simp only [timesFrom, opTime, Bool.and_eq_true,
            decide_eq_true_eq] at htimes
          exact ih now _ hclean.2 htimes.2
            (create_tsOK st f body t now hclean.1 htimes.1 hst)
      | updateOp i now body =>
          simp only [timesFrom, opTime, Bool.and_eq_true,
            decide_eq_true_eq] at htimes
          exact ih now _ hclean.2 htimes.2
            (update_tsOK st i body t now hclean.1 htimes.1 hst)
      | deleteOp i =>
          simp only [timesFrom, opTime] at htimes
          exact ih t _ hclean.2 htimes (delete_tsOK st i t hst)

theorem sGet_sPut_same (st : Store) (k : String) (it : Item) :
    sGet (sPut st k it) k = some it :=
  lookupA_setA_same st k it

/-- C1: for every create request whose body is a dict containing key
"name", when the storage put succeeds, the handler returns status 201 with
body carrying the generated id and the success message, and this response
is the same for every outcome of the processing-time metric attempt: in
the source that attempt always raises `NameError` on the undefined name
`context`, and the bare except swallows whatever happened. -/
theorem create_success_response (freshId : String) (now : Int)
    (metricOutcome : Except String Unit) (fs : List (String × JVal))
    (st : Store) (nm : JVal) (key : String)
    (hname : dGet fs "name" = some nm)
    (hput : putKey? (buildCreateItem freshId now fs) = some key) :
    (handle_create_item freshId now metricOutcome (.jobj fs) st).1
      = mkResp 201 (.jobj [("itemId", .jstr freshId),
          ("message", .jstr "Item created successfully")]) := by
  cases fs with
  | nil => simp [dGet, lookupA] at hname
  | cons kv rest =>
      have hhas : dHas (kv :: rest) "name" = true :=
        (dHas_true_iff _ _).mpr ⟨nm, hname⟩
      simp only [handle_create_item, hhas, if_pos, hput]

/-- Witness for C1 at a concrete input, with the metric attempt failing the
way the source always does. -/
theorem create_success_response_witness :
    (handle_create_item "9f1c2d3e-4b5a-6789-abcd-ef0123456789" 100
        (.error "NameError: name context is not defined")
        (.jobj [("name", .jstr "Widget")]) []).1
      = mkResp 201 (.jobj [("itemId",
          .jstr "9f1c2d3e-4b5a-6789-abcd-ef0123456789"),
          ("message", .jstr "Item created successfully")]) :=
  create_success_response "9f1c2d3e-4b5a-6789-abcd-ef0123456789" 100
    (.error "NameError: name context is not defined")
    [("name", .jstr "Widget")] [] (.jstr "Widget")
    "9f1c2d3e-4b5a-6789-abcd-ef0123456789" rfl rfl

/-- C2 counterexample: a create whose body is a dict containing "name"
(and the storage put succeeds) but also carries a caller-supplied "itemId"
stores the item under the caller key; the Get with the itemId returned
in the 201 body then answers 404, not 200. -/
theorem create_then_get_cex :
    (handle_create_item "9f1c2d3e-4b5a-6789-abcd-ef0123456789" 0 (.ok ())
        (.jobj [("name", .jstr "A"), ("itemId", .jstr "x")]) []).1
      = mkResp 201 (.jobj [("itemId",
          .jstr "9f1c2d3e-4b5a-6789-abcd-ef0123456789"),
          ("message", .jstr "Item created successfully")])
  ∧ handle_get_item "9f1c2d3e-4b5a-6789-abcd-ef0123456789"
      (handle_create_item "9f1c2d3e-4b5a-6789-abcd-ef0123456789" 0 (.ok ())
        (.jobj [("name", .jstr "A"), ("itemId", .jstr "x")]) []).2
      = mkResp 404 (.jobj [("error", .jstr "Item not found")]) :=
  ⟨rfl, rfl⟩

/-- C2 as amended: for creates whose body contains "name" and none of the
reserved keys "itemId", "createdAt", "updatedAt", the 201 body carries the
generated (non-empty) id, and Get with that id returns 200 with the stored
item, whose createdAt equals its updatedAt and whose name equals the
submitted name. -/
theorem create_then_get_ok (freshId : String) (now : Int)
    (metricOutcome : Except String Unit) (fs : List (String × JVal))
    (st : Store) (nm : JVal)
    (hfresh : freshId ≠ "")
    (hname : dGet fs "name" = some nm)
    (hid : dGet fs "itemId" = none)
    (hca : dGet fs "createdAt" = none)
    (hua : dGet fs "updatedAt" = none) :
    (handle_create_item freshId now metricOutcome (.jobj fs) st).1
      = mkResp 201 (.jobj [("itemId", .jstr freshId),
          ("message", .jstr "Item created successfully")])
  ∧ handle_get_item freshId
      ((handle_create_item freshId now metricOutcome (.jobj fs) st).2)
      = mkResp 200 (.jobj (buildCreateItem freshId now fs))
  ∧ dGet (buildCreateItem freshId now fs) "createdAt" = some (.jnum now)
  ∧ dGet (buildCreateItem freshId now fs) "updatedAt" = some (.jnum now)
  ∧ dGet (buildCreateItem freshId now fs) "name" = some nm := by
  have hkey : putKey? (buildCreateItem freshId now fs) = some freshId := by
    unfold putKey?
    rw [buildCreateItem_itemId _ _ _ hid]
  cases fs with
  | nil => simp [dGet, lookupA] at hname
  | cons kv rest =>
      have hhas : dHas (kv :: rest) "name" = true :=
        (dHas_true_iff _ _).mpr ⟨nm, hname⟩
      refine ⟨?_, ?_, buildCreateItem_createdAt _ _ _ hca,
        buildCreateItem_updatedAt _ _ _ hua,
        buildCreateItem_name _ _ _ _ hname⟩
      · simp only [handle_create_item, hhas, if_pos, hkey]
      · simp only [handle_create_item, hhas, if_pos, hkey]
        simp only [handle_get_item, if_neg hfresh, sGet_sPut_same]

/-- Witness for the amended C2 theorem at a concrete input. -/
theorem create_then_get_ok_witness :
    handle_get_item "9f1c2d3e-4b5a-6789-abcd-ef0123456789"
      ((handle_create_item "9f1c2d3e-4b5a-6789-abcd-ef0123456789" 7 (.ok ())
        (.jobj [("name", .jstr "Widget")]) []).2)
      = mkResp 200 (.jobj (buildCreateItem
          "9f1c2d3e-4b5a-6789-abcd-ef0123456789" 7
          [("name", .jstr "Widget")])) :=
  (create_then_get_ok "9f1c2d3e-4b5a-6789-abcd-ef0123456789" 7 (.ok ())
    [("name", .jstr "Widget")] [] (.jstr "Widget")
    (by decide) rfl rfl rfl rfl).2.1

/-- C3: for every create whose dict body contains "name" and a reserved
key among "itemId", "createdAt", "updatedAt", the copy-through loop
(which excludes only "name" and "description") overwrites the freshly
generated value in the item sent to storage with the caller-supplied one,
while the 201 response still carries the freshly generated id; with a
caller-supplied string "itemId" the item is stored under the caller key,
which can therefore differ from the id returned to the caller. -/
theorem create_reserved_keys_overwrite (freshId : String) (now : Int)
    (metricOutcome : Except String Unit) (fs : List (String × JVal))
    (st : Store)
    (hnd : (fs.map Prod.fst).Nodup) (hname : dHas fs "name" = true) :
    (dHas fs "itemId" = true →
        dGet (buildCreateItem freshId now fs) "itemId" = dGet fs "itemId")
  ∧ (dHas fs "createdAt" = true →
        dGet (buildCreateItem freshId now fs) "createdAt"
          = dGet fs "createdAt")
  ∧ (dHas fs "updatedAt" = true →
        dGet (buildCreateItem freshId now fs) "updatedAt"
          = dGet fs "updatedAt")
  ∧ (∀ s, dGet fs "itemId" = some (.jstr s) →
        handle_create_item freshId now metricOutcome (.jobj fs) st
          = (mkResp 201 (.jobj [("itemId", .jstr freshId),
              ("message", .jstr "Item created successfully")]),
             sPut st s (buildCreateItem freshId now fs))) := by
  refine ⟨?_, ?_, ?_, ?_⟩
  · intro h
    obtain ⟨v, hv⟩ := (dHas_true_iff _ _).mp h
    rw [hv]
    unfold buildCreateItem
    exact mergeSkip_present _ _ _ _ _ (by decide) hnd hv
  · intro h
    obtain ⟨v, hv⟩ := (dHas_true_iff _ _).mp h
    rw [hv]
    unfold buildCreateItem
    exact mergeSkip_present _ _ _ _ _ (by decide) hnd hv
  · intro h
    obtain ⟨v, hv⟩ := (dHas_true_iff _ _).mp h
    rw [hv]
    unfold buildCreateItem
    exact mergeSkip_present _ _ _ _ _ (by decide) hnd hv
  · intro s hs
    have hitem : dGet (buildCreateItem freshId now fs) "itemId"
        = some (.jstr s) := by
      unfold buildCreateItem
      exact mergeSkip_present _ _ _ _ _ (by decide) hnd hs
    have hkey : putKey? (buildCreateItem freshId now fs) = some s := by
      unfold putKey?
      rw [hitem]
    cases fs with
    | nil => simp [dHas, dGet, lookupA] at hname
    | cons kv rest =>
        simp only [handle_create_item, hname, if_pos, hkey]

/-- Witness for C3 at a concrete input: the caller "itemId" wins in the
stored item while the response carries the generated id. -/
theorem create_reserved_keys_overwrite_witness :
    handle_create_item "9f1c2d3e-4b5a-6789-abcd-ef0123456789" 3 (.ok ())
        (.jobj [("name", .jstr "A"), ("itemId", .jstr "x")]) []
      = (mkResp 201 (.jobj [("itemId",
          .jstr "9f1c2d3e-4b5a-6789-abcd-ef0123456789"),
          ("message", .jstr "Item created successfully")]),
         sPut [] "x" (buildCreateItem
           "9f1c2d3e-4b5a-6789-abcd-ef0123456789" 3
           [("name", .jstr "A"), ("itemId", .jstr "x")])) :=
  (create_reserved_keys_overwrite "9f1c2d3e-4b5a-6789-abcd-ef0123456789" 3
    (.ok ()) [("name", .jstr "A"), ("itemId", .jstr "x")] []
    (by simp) rfl).2.2.2 "x" rfl

/-- C4 counterexample: a create whose body carries "createdAt" 100 at
wall-clock second 50 stores an item with createdAt 100 and updatedAt 50,
violating createdAt less-or-equal updatedAt. -/
theorem createdAt_le_updatedAt_cex :
    sGet (applyOps [] [.createOp "9f1c2d3e-4b5a-6789-abcd-ef0123456789" 50
        (.jobj [("name", .jstr "A"), ("createdAt", .jnum 100)])])
        "9f1c2d3e-4b5a-6789-abcd-ef0123456789"
      = some [("itemId", .jstr "9f1c2d3e-4b5a-6789-abcd-ef0123456789"),
              ("name", .jstr "A"), ("description", .jstr ""),
              ("createdAt", .jnum 100), ("updatedAt", .jnum 50)]
  ∧ ¬ ((100 : Int) ≤ 50) :=
  ⟨rfl, by decide⟩

/-- C4 as amended: after every sequence of create/update/delete operations
starting from the empty store, provided no create body supplies
"createdAt" or "updatedAt" and no update body supplies "updatedAt"
(`cleanOp`), and the wall-clock readings along the sequence never decrease,
every stored item with integer timestamps satisfies createdAt at most
updatedAt. -/
theorem createdAt_le_updatedAt (t0 : Int) (ops : List Op)
    (hclean : ops.all cleanOp = true) (htimes : timesFrom t0 ops = true) :
    ∀ p ∈ applyOps [] ops, ∀ c u : Int,
      dGet p.2 "createdAt" = some (.jnum c) →
      dGet p.2 "updatedAt" = some (.jnum u) → c ≤ u := by
  obtain ⟨t1, h⟩ := applyOps_tsOK ops t0 [] hclean htimes
    (fun p hp => absurd hp (List.not_mem_nil p))
  intro p hp c u hc hu
  exact ((h p hp).2 c u hc hu).1

/-- Witness for the amended C4 theorem: a clean create at second 5 followed
by a clean update at second 7 yields an item with createdAt 5, updatedAt 7,
and the theorem delivers 5 at most 7. -/
theorem createdAt_le_updatedAt_witness :
    ([Op.createOp "9f1c2d3e-4b5a-6789-abcd-ef0123456789" 5
        (.jobj [("name", .jstr "A")]),
      Op.updateOp "9f1c2d3e-4b5a-6789-abcd-ef0123456789" 7
        (.jobj [("description", .jstr "B")])].all cleanOp = true)
  ∧ (5 : Int) ≤ 7 := by
  refine ⟨rfl, ?_⟩
  refine createdAt_le_updatedAt 0
    [Op.createOp "9f1c2d3e-4b5a-6789-abcd-ef0123456789" 5
        (.jobj [("name", .jstr "A")]),
      Op.updateOp "9f1c2d3e-4b5a-6789-abcd-ef0123456789" 7
        (.jobj [("description", .jstr "B")])] rfl rfl
    ("9f1c2d3e-4b5a-6789-abcd-ef0123456789",
      [("itemId", .jstr "9f1c2d3e-4b5a-6789-abcd-ef0123456789"),
       ("name", .jstr "A"), ("description", .jstr "B"),
       ("createdAt", .jnum 5), ("updatedAt", .jnum 7)]) ?_ 5 7 rfl rfl
  rw [show applyOps []
    [Op.createOp "9f1c2d3e-4b5a-6789-abcd-ef0123456789" 5
        (.jobj [("name", .jstr "A")]),
      Op.updateOp "9f1c2d3e-4b5a-6789-abcd-ef0123456789" 7
        (.jobj [("description", .jstr "B")])]
    = [("9f1c2d3e-4b5a-6789-abcd-ef0123456789",
        [("itemId", .jstr "9f1c2d3e-4b5a-6789-abcd-ef0123456789"),
         ("name", .jstr "A"), ("description", .jstr "B"),
         ("createdAt", .jnum 5), ("updatedAt", .jnum 7)])] from rfl]
  exact List.mem_singleton.mpr rfl

/-- C5 counterexample: an update whose body carries "updatedAt" 0 at
wall-clock second 5 writes the caller value 0, not the current timestamp 5:
the merge skips only "itemId" and "createdAt", and the body assignment
comes after the fresh-timestamp assignment, so the body value wins. -/
theorem update_merge_semantics_cex :
    sGet (handle_update_item 5 "i" (.jobj [("updatedAt", .jnum 0)])
        [("i", [("itemId", .jstr "i"), ("createdAt", .jnum 1),
                ("updatedAt", .jnum 1)])]).2 "i"
      = some [("itemId", .jstr "i"), ("createdAt", .jnum 1),
              ("updatedAt", .jnum 0)]
  ∧ JVal.jnum 0 ≠ JVal.jnum 5 :=
  ⟨rfl, by simp⟩

/-- C5 as amended: for every update on an existing item with a non-empty
dict body that does not itself contain "updatedAt", the body keys "itemId"
and "createdAt" are silently ignored (the stored values survive), the
merge is partial (stored fields not named in the body, other than
updatedAt, are unchanged), every body key other than "itemId"/"createdAt"
is set, and updatedAt is set to the current epoch timestamp.  (When the
body does contain "updatedAt", the caller value overwrites the fresh
timestamp, as the counterexample shows.) -/
theorem update_merge_semantics (now : Int) (id : String)
    (fs : List (String × JVal)) (st : Store) (old : Item)
    (hid : id ≠ "") (hne : fs ≠ [])
    (hnd : (fs.map Prod.fst).Nodup)
    (hua : dGet fs "updatedAt" = none)
    (hold : sGet st id = some old) :
    (handle_update_item now id (.jobj fs) st).1
      = mkResp 200 (.jobj [("itemId", .jstr id),
          ("message", .jstr "Item updated successfully")])
  ∧ (handle_update_item now id (.jobj fs) st).2
      = sPut st id (buildUpdatedItem now fs old)
  ∧ sGet (handle_update_item now id (.jobj fs) st).2 id
      = some (buildUpdatedItem now fs old)
  ∧ dGet (buildUpdatedItem now fs old) "itemId" = dGet old "itemId"
  ∧ dGet (buildUpdatedItem now fs old) "createdAt" = dGet old "createdAt"
  ∧ dGet (buildUpdatedItem now fs old) "updatedAt" = some (.jnum now)
  ∧ (∀ k v, dGet fs k = some v → k ≠ "itemId" → k ≠ "createdAt" →
      dGet (buildUpdatedItem now fs old) k = some v)
  ∧ (∀ k, dGet fs k = none → k ≠ "updatedAt" →
      dGet (buildUpdatedItem now fs old) k = dGet old k) := by
  cases fs with
  | nil => exact absurd rfl hne
  | cons kv rest =>
      refine ⟨?_, ?_, ?_, buildUpdatedItem_itemId _ _ _,
        buildUpdatedItem_createdAt _ _ _,
        buildUpdatedItem_updatedAt _ _ _ hua,
        ?_, ?_⟩
      · simp only [handle_update_item, if_neg hid, hold]
      · simp only [handle_update_item, if_neg hid, hold]
      · simp only [handle_update_item, if_neg hid, hold]
        exact sGet_sPut_same st id _
      · intro k v hv h1 h2
        exact buildUpdatedItem_body now _ old k v hnd hv h1 h2
      · intro k hk hk2
        exact buildUpdatedItem_frame now _ old k hk hk2

/-- Witness for the amended C5 theorem at a concrete input. -/
theorem update_merge_semantics_witness :
    (handle_update_item 7 "i" (.jobj [("description", .jstr "B")])
        [("i", [("itemId", .jstr "i"), ("name", .jstr "A"),
                ("createdAt", .jnum 5), ("updatedAt", .jnum 5)])]).1
      = mkResp 200 (.jobj [("itemId", .jstr "i"),
          ("message", .jstr "Item updated successfully")]) :=
  (update_merge_semantics 7 "i" [("description", .jstr "B")]
    [("i", [("itemId", .jstr "i"), ("name", .jstr "A"),
            ("createdAt", .jnum 5), ("updatedAt", .jnum 5)])]
    [("itemId", .jstr "i"), ("name", .jstr "A"),
     ("createdAt", .jnum 5), ("updatedAt", .jnum 5)]
    (by decide) (by simp) (by simp) rfl rfl).1

/-- C6: for every update request with a non-empty identifier and a
(non-empty, so that the existence check is reached) dict body, when the
existence check finds no item at the key, the handler returns 404 with
the Item-not-found body and leaves the store exactly unchanged: no upsert
happens. -/
theorem update_not_found (now : Int) (id : String)
    (fs : List (String × JVal)) (st : Store)
    (hid : id ≠ "") (hne : fs ≠ []) (hnone : sGet st id = none) :
    handle_update_item now id (.jobj fs) st
      = (mkResp 404 (.jobj [("error", .jstr "Item not found")]), st) := by
  cases fs with
  | nil => exact absurd rfl hne
  | cons kv rest => simp only [handle_update_item, if_neg hid, hnone]

/-- Witness for C6 at a concrete input. -/
theorem update_not_found_witness :
    handle_update_item 3 "missing" (.jobj [("name", .jstr "X")]) []
      = (mkResp 404 (.jobj [("error", .jstr "Item not found")]), []) :=
  update_not_found 3 "missing" [("name", .jstr "X")] []
    (by decide) (by simp) rfl

/-- C7 counterexample: the empty dict does not contain "name", yet the
handler rejects it earlier with the Invalid-input message (the empty dict
is falsy in Python), not the Missing-required-field message the claim
states. -/
theorem create_missing_name_cex :
    (handle_create_item "9f1c2d3e-4b5a-6789-abcd-ef0123456789" 0 (.ok ())
        (.jobj []) []).1
      = mkResp 400 (.jobj [("error",
          .jstr "Invalid input: body must be a JSON object")])
  ∧ JVal.jstr "Invalid input: body must be a JSON object"
      ≠ JVal.jstr "Missing required field: name" :=
  ⟨rfl, by simp⟩

/-- C7 as amended: for every create whose body is a dict without key
"name", the handler returns 400 and the store is exactly unchanged; when
the dict is non-empty the body is the Missing-required-field message
(the empty dict instead gets the Invalid-input message, still a 400 with
no storage mutation). -/
theorem create_missing_name (freshId : String) (now : Int)
    (metricOutcome : Except String Unit) (fs : List (String × JVal))
    (st : Store) (hname : dGet fs "name" = none) :
    (handle_create_item freshId now metricOutcome (.jobj fs) st).2 = st
  ∧ (handle_create_item freshId now metricOutcome
      (.jobj fs) st).1.statusCode = 400
  ∧ (fs ≠ [] →
      (handle_create_item freshId now metricOutcome (.jobj fs) st).1
        = mkResp 400 (.jobj [("error",
            .jstr "Missing required field: name")])) := by
  cases fs with
  | nil => exact ⟨rfl, rfl, fun h => absurd rfl h⟩
  | cons kv rest =>
      have hhas : dHas (kv :: rest) "name" = false :=
        (dHas_false_iff _ _).mpr hname
      refine ⟨?_, ?_, fun _ => ?_⟩
      · simp only [handle_create_item, hhas, Bool.false_eq_true, if_false]
      · simp only [handle_create_item, hhas, Bool.false_eq_true, if_false]
        rfl
      · simp only [handle_create_item, hhas, Bool.false_eq_true, if_false]

/-- Witness for the amended C7 theorem at a concrete input. -/
theorem create_missing_name_witness :
    (handle_create_item "9f1c2d3e-4b5a-6789-abcd-ef0123456789" 0 (.ok ())
        (.jobj [("description", .jstr "no name")]) []).1
      = mkResp 400 (.jobj [("error",
          .jstr "Missing required field: name")]) :=
  (create_missing_name "9f1c2d3e-4b5a-6789-abcd-ef0123456789" 0 (.ok ())
    [("description", .jstr "no name")] [] rfl).2.2 (by simp)

/-- C8 counterexample: the empty identifier is absent from the (empty)
store, yet Delete answers 400 (identifier validation fires first), not the
404 the claim states for every identifier not present in storage; the
empty identifier is reachable through DELETE on a path ending in
"/items/". -/
theorem delete_semantics_cex :
    sGet ([] : Store) "" = none
  ∧ handle_delete_item "" []
      = (mkResp 400 (.jobj [("error",
          .jstr "Item ID is required for deletion")]), [])
  ∧ (400 : Nat) ≠ 404 :=
  ⟨rfl, rfl, by decide⟩

/-- C8 as amended: for every non-empty identifier present in storage,
Delete returns 200 with the deleted-successfully body and removes the
item, so a subsequent Get on the same identifier returns 404; for every
non-empty identifier not present, Delete returns 404 with the
Item-not-found body and leaves storage unchanged.  (The empty identifier
instead gets a 400 before storage is consulted.) -/
theorem delete_semantics (id : String) (st : Store) (hid : id ≠ "") :
    (∀ item, sGet st id = some item →
        handle_delete_item id st
          = (mkResp 200 (.jobj [("itemId", .jstr id),
              ("message", .jstr "Item deleted successfully")]), sDel st id)
      ∧ handle_get_item id (sDel st id)
          = mkResp 404 (.jobj [("error", .jstr "Item not found")]))
  ∧ (sGet st id = none →
      handle_delete_item id st
        = (mkResp 404 (.jobj [("error", .jstr "Item not found")]), st)) := by
  constructor
  · intro item hsome
    constructor
    · simp only [handle_delete_item, if_neg hid, hsome]
    · simp only [handle_get_item, if_neg hid, sGet_sDel_same]
  · intro hnone
    simp only [handle_delete_item, if_neg hid, hnone]

/-- Witness for the amended C8 theorem at a concrete input: delete an
existing item, then the follow-up get is a 404. -/
theorem delete_semantics_witness :
    handle_delete_item "i" [("i", [("itemId", .jstr "i")])]
      = (mkResp 200 (.jobj [("itemId", .jstr "i"),
          ("message", .jstr "Item deleted successfully")]),
         sDel [("i", [("itemId", .jstr "i")])] "i")
  ∧ handle_get_item "i" (sDel [("i", [("itemId", .jstr "i")])] "i")
      = mkResp 404 (.jobj [("error", .jstr "Item not found")]) :=
  (delete_semantics "i" [("i", [("itemId", .jstr "i")])] (by decide)).1
    [("itemId", .jstr "i")] rfl

/-- C9: for every request whose method and path match none of the four
routing patterns (POST with path ending in "/items"; GET, PUT or DELETE
with "/items/" in the path), the dispatcher classifies the route as
unmatched and returns 404 with the Not-found body, leaving the store
exactly unchanged: no operation handler and no storage call runs. -/
theorem route_unmatched (freshId : String) (now : Int)
    (metricOutcome : Except String Unit) (httpMethod path : String)
    (pathParams : List (String × String)) (body : JVal) (st : Store)
    (h1 : ¬ (httpMethod = "POST" ∧ strEndsWith path "/items" = true))
    (h2 : ¬ (httpMethod = "GET" ∧ strContains path "/items/" = true))
    (h3 : ¬ (httpMethod = "PUT" ∧ strContains path "/items/" = true))
    (h4 : ¬ (httpMethod = "DELETE" ∧ strContains path "/items/" = true)) :
    route httpMethod path pathParams = .unmatched
  ∧ handler freshId now metricOutcome httpMethod path pathParams body st
      = (mkResp 404 (.jobj [("error", .jstr "Not found")]), st) := by
  have hr : route httpMethod path pathParams = .unmatched := by
    unfold route
    rw [if_neg h1, if_neg h2, if_neg h3, if_neg h4]
  refine ⟨hr, ?_⟩
  unfold handler
  rw [hr]

/-- Witness for C9 at a concrete input: a PATCH request matches no route
pattern. -/
theorem route_unmatched_witness :
    handler "9f1c2d3e-4b5a-6789-abcd-ef0123456789" 0 (.ok ()) "PATCH"
        "/items/abc" [] (.jobj [("name", .jstr "A")]) []
      = (mkResp 404 (.jobj [("error", .jstr "Not found")]), []) :=
  (route_unmatched "9f1c2d3e-4b5a-6789-abcd-ef0123456789" 0 (.ok ())
    "PATCH" "/items/abc" [] (.jobj [("name", .jstr "A")]) []
    (by decide) (by decide) (by decide) (by decide)).2

/-- C10 counterexample: when the create and the update happen within the
same epoch second (both read int(time.time()) = 0), the final item has
updatedAt equal to createdAt, not strictly greater. -/
theorem create_update_get_merge_cex :
    handle_get_item "9f1c2d3e-4b5a-6789-abcd-ef0123456789"
      (handle_update_item 0 "9f1c2d3e-4b5a-6789-abcd-ef0123456789"
        (.jobj [("description", .jstr "B")])
        (handle_create_item "9f1c2d3e-4b5a-6789-abcd-ef0123456789" 0 (.ok ())
          (.jobj [("name", .jstr "A")]) []).2).2
      = mkResp 200 (.jobj [("itemId",
          .jstr "9f1c2d3e-4b5a-6789-abcd-ef0123456789"),
          ("name", .jstr "A"), ("description", .jstr "B"),
          ("createdAt", .jnum 0), ("updatedAt", .jnum 0)])
  ∧ ¬ ((0 : Int) > 0) :=
  ⟨rfl, by decide⟩

/-- C10 as amended: create with name "A" at second t1, update that item
with description "B" at second t2 with t1 at most t2, then get: the item
has name "A", description "B", createdAt t1 and updatedAt t2, so updatedAt
is at least createdAt, strictly greater exactly when the update happens at
a later epoch second than the create. -/
theorem create_update_get_merge (freshId : String) (t1 t2 : Int)
    (st : Store) (metricOutcome : Except String Unit)
    (hfresh : freshId ≠ "") (ht : t1 ≤ t2) :
    handle_get_item freshId
      (handle_update_item t2 freshId (.jobj [("description", .jstr "B")])
        (handle_create_item freshId t1 metricOutcome
          (.jobj [("name", .jstr "A")]) st).2).2
    = mkResp 200 (.jobj [("itemId", .jstr freshId), ("name", .jstr "A"),
        ("description", .jstr "B"), ("createdAt", .jnum t1),
        ("updatedAt", .jnum t2)])
  ∧ dGet [("itemId", JVal.jstr freshId), ("name", JVal.jstr "A"),
        ("description", JVal.jstr "B"), ("createdAt", JVal.jnum t1),
        ("updatedAt", JVal.jnum t2)] "createdAt" = some (.jnum t1)
  ∧ dGet [("itemId", JVal.jstr freshId), ("name", JVal.jstr "A"),
        ("description", JVal.jstr "B"), ("createdAt", JVal.jnum t1),
        ("updatedAt", JVal.jnum t2)] "updatedAt" = some (.jnum t2)
  ∧ t1 ≤ t2 := by
  refine ⟨?_, rfl, rfl, ht⟩
  have hstep1 : (handle_create_item freshId t1 metricOutcome
      (.jobj [("name", .jstr "A")]) st).2
    = sPut st freshId
        [("itemId", .jstr freshId), ("name", .jstr "A"),
         ("description", .jstr ""), ("createdAt", .jnum t1),
         ("updatedAt", .jnum t1)] := rfl
  rw [hstep1]
  have hold : sGet (sPut st freshId
      [("itemId", .jstr freshId), ("name", .jstr "A"),
       ("description", .jstr ""), ("createdAt", .jnum t1),
       ("updatedAt", .jnum t1)]) freshId
    = some [("itemId", .jstr freshId), ("name", .jstr "A"),
       ("description", .jstr ""), ("createdAt", .jnum t1),
       ("updatedAt", .jnum t1)] := sGet_sPut_same _ _ _
  simp only [handle_update_item, if_neg hfresh, hold]
  simp only [handle_get_item, if_neg hfresh, sGet_sPut_same]
  rfl

/-- Witness for the amended C10 theorem at a concrete input with the update
one second after the create. -/
theorem create_update_get_merge_witness :
    handle_get_item "9f1c2d3e-4b5a-6789-abcd-ef0123456789"
      (handle_update_item 11 "9f1c2d3e-4b5a-6789-abcd-ef0123456789"
        (.jobj [("description", .jstr "B")])
        (handle_create_item "9f1c2d3e-4b5a-6789-abcd-ef0123456789" 10
          (.ok ()) (.jobj [("name", .jstr "A")]) []).2).2
    = mkResp 200 (.jobj [("itemId",
        .jstr "9f1c2d3e-4b5a-6789-abcd-ef0123456789"),
        ("name", .jstr "A"), ("description", .jstr "B"),
        ("createdAt", .jnum 10), ("updatedAt", .jnum 11)]) :=
  (create_update_get_merge "9f1c2d3e-4b5a-6789-abcd-ef0123456789" 10 11 []
    (.ok ()) (by decide) (by decide)).1

end AwsServerlessApi
